import Mathlib

/-!
Verification development for the Backend-Quickstart project generator.

The generator (`generateProject` / `copyTemplate` / `processTemplateFile` in
the repository's generator module) renders a tree of template files with the
mustache.js library and writes the results into a target directory.  This file
gives a shallow embedding of:

* the mustache.js rendering pipeline (`parseTemplate` + `renderTokens`) for
  the tag forms exercised by the repository's templates: literal text,
  escaped variables `{\x7b name }\x7d`, unescaped variables
  `{\x7b{ name }\x7d}` and `{\x7b& name }\x7d`, sections `{\x7b# name }\x7d`,
  inverted sections `{\x7b^ name }\x7d`, closes `{\x7b/ name }\x7d`, and
  comments.  Partials and set-delimiter tags are not used by the repository
  and are modelled as a hard `unsupportedTag` error.  Standalone-line
  whitespace stripping is not modelled; every template appearing in a theorem
  below is a single line, where mustache.js performs no stripping.
* the target-file-name derivation and file processing of
  `processTemplateFile`, the tree walk of `copyTemplate`, and the entry point
  `generateProject`, over an explicit file-system state;
* `validateProjectPath` from `src/utils/validation.ts`.

Context values are booleans and strings, the value forms of the spec's
`TemplateContext` data model and of every context entry the claims exercise.
-/

/-- A template-context value: a boolean flag or a string, the two value forms
of the `TemplateContext` data model.  (The `features : string[]` field of
`ProjectConfig` is array-valued; it is never referenced by any directive in
the packaged templates and is outside this value model, see
`buildTemplateContext`.) -/
inductive MValue where
  | b (bb : Bool)
  | s (str : String)
deriving DecidableEq, Repr

/-- A template context: a finite mapping from flag names to values, modelled
as an association list (the generator builds it once with pairwise-distinct
keys, so lookup order is irrelevant). -/
def Ctx := List (String × MValue)

/-- Context lookup: the value bound to `n`, or `none` when the name is absent
(JavaScript `undefined`). -/
def lookupCtx (ctx : Ctx) (n : String) : Option MValue :=
  (List.find? (fun p => p.1 == n) ctx).map (fun p => p.2)

/-- JavaScript truthiness of a looked-up context value, as mustache.js tests
it for sections (`!value`): `undefined`, `false` and the empty string are
falsy; `true` and nonempty strings are truthy. -/
def truthy : Option MValue → Bool
  | none => false
  | some (.b bb) => bb
  | some (.s str) => !(str == "")

/-- JavaScript `String(value)` on a looked-up value, with `undefined`
rendering as the empty string (mustache.js skips `null`/`undefined` values
before stringifying). -/
def stringifyVal : Option MValue → String
  | none => ""
  | some (.b true) => "true"
  | some (.b false) => "false"
  | some (.s str) => str

/-- mustache.js `escapeHtml` on one character: its entity map covers
`&`, `<`, `>`, double quote, single quote, `/`, backtick and `=`. -/
def escapeChar (c : Char) : String :=
  if c = '&' then "&amp;"
  else if c = '<' then "&lt;"
  else if c = '>' then "&gt;"
  else if c = '\"' then "&quot;"
  else if c = '\'' then "&#39;"
  else if c = '/' then "&#x2F;"
  else if c = Char.ofNat 96 then "&#x60;"
  else if c = '=' then "&#x3D;"
  else String.singleton c

/-- mustache.js `escapeHtml`: HTML-escape every character of a string through
the entity map.  This is the default `Mustache.escape`, applied to every
double-brace variable substitution. -/
def escapeHtml (s : String) : String :=
  String.join (s.data.map escapeChar)

/-- Template syntax errors raised by mustache.js `parseTemplate`.  Each
carries exactly the data the thrown `Error`'s message carries: a section
name (for section errors) and a character offset. -/
inductive MErr where
  | unopenedSection (name : String) (pos : Nat)
  | unclosedSection (name : String) (pos : Nat)
  | unclosedTag (pos : Nat)
  | unsupportedTag (pos : Nat)
deriving DecidableEq, Repr

/-- The flag names an `MErr` mentions (the names appearing in the thrown
error's message). -/
def MErr.names : MErr → List String
  | .unopenedSection n _ => [n]
  | .unclosedSection n _ => [n]
  | .unclosedTag _ => []
  | .unsupportedTag _ => []

/-- Flat tags produced by the first (scanning) pass of `parseTemplate`,
before section nesting.  Open/close tags carry the character offset at which
the tag starts, the offset mustache.js reports in syntax errors. -/
inductive RawTag where
  | text (s : String)
  | openSec (name : String) (pos : Nat)
  | openInv (name : String) (pos : Nat)
  | closeSec (name : String) (pos : Nat)
  | escVar (name : String)
  | rawVar (name : String)
deriving DecidableEq, Repr

/-- Nested template tokens, the result of mustache.js `nestTokens`. -/
inductive Token where
  | text (s : String)
  | escVar (name : String)
  | rawVar (name : String)
  | sec (name : String) (inner : List Token)
  | inv (name : String) (inner : List Token)
deriving Repr

/-- Whitespace-trim a character list on both ends, as mustache.js trims tag
names (it skips whitespace after the tag-type sigil and lets the closing
regex absorb trailing whitespace). -/
def trimChars (cs : List Char) : List Char :=
  ((cs.dropWhile Char.isWhitespace).reverse.dropWhile Char.isWhitespace).reverse

/-- Scan to the first `}\x7d` tag close; returns the characters before it and
the characters after it, or `none` when the input has no tag close. -/
def findClose : List Char → Option (List Char × List Char)
  | [] => none
  | '}' :: '}' :: rest => some ([], rest)
  | c :: rest => (findClose rest).map (fun p => (c :: p.1, p.2))

/-- Scan to the first `}\x7d}` triple close; returns the characters before it
and the characters after it, or `none` when the input has no triple close. -/
def findCloseTriple : List Char → Option (List Char × List Char)
  | [] => none
  | '}' :: '}' :: '}' :: rest => some ([], rest)
  | c :: rest => (findCloseTriple rest).map (fun p => (c :: p.1, p.2))

/-- Flush an accumulated (reversed) run of literal characters into a text
tag, prepended to `rest`. -/
def flushText (acc : List Char) (rest : List RawTag) : List RawTag :=
  match acc with
  | [] => rest
  | _ => .text (String.mk acc.reverse) :: rest

/-- One scanned double-brace tag body classified as in mustache.js
`parseTemplate`: the character after `{\x7b{` selects the tag type, the
remainder (whitespace-trimmed) is the name.  Comments produce no tag;
partials and set-delimiter tags are unsupported in this model. -/
def classifyTag (inside : List Char) (pos : Nat) : Except MErr (List RawTag) :=
  match inside with
  | '#' :: nm => .ok [.openSec (String.mk (trimChars nm)) pos]
  | '^' :: nm => .ok [.openInv (String.mk (trimChars nm)) pos]
  | '/' :: nm => .ok [.closeSec (String.mk (trimChars nm)) pos]
  | '&' :: nm => .ok [.rawVar (String.mk (trimChars nm))]
  | '!' :: _ => .ok []
  | '>' :: _ => .error (.unsupportedTag pos)
  | '=' :: _ => .error (.unsupportedTag pos)
  | nm => .ok [.escVar (String.mk (trimChars nm))]

/-- The scanning pass of mustache.js `parseTemplate`: a single left-to-right
scan splitting the template into literal text and flat tags.  `pos` is the
current character offset; `acc` holds the current (reversed) literal run.
`fuel` bounds the recursion; every step consumes at least one character, so
`fuel = length + 1` (as supplied by `parseTemplate`) never runs out. -/
def scanTags (fuel : Nat) (cs : List Char) (pos : Nat) (acc : List Char) :
    Except MErr (List RawTag) :=
  match fuel with
  | 0 => .error (.unclosedTag pos)
  | fuel + 1 =>
    match cs with
    | [] => .ok (flushText acc [])
    | '{' :: '{' :: '{' :: rest =>
      match findCloseTriple rest with
      | none => .error (.unclosedTag pos)
      | some (inside, rest2) => do
        let tail ← scanTags fuel rest2 (pos + 3 + inside.length + 3) []
        .ok (flushText acc (.rawVar (String.mk (trimChars inside)) :: tail))
    | '{' :: '{' :: rest =>
      match findClose rest with
      | none => .error (.unclosedTag pos)
      | some (inside, rest2) => do
        let tags ← classifyTag inside pos
        let tail ← scanTags fuel rest2 (pos + 2 + inside.length + 2) []
        .ok (flushText acc (tags ++ tail))
    | c :: rest => scanTags fuel rest (pos + 1) (c :: acc)

/-- The section-nesting pass of mustache.js `parseTemplate`/`nestTokens`,
with the section-balance checks mustache.js performs while scanning: a close
tag with an empty stack raises `unopenedSection`; a close tag naming a flag
other than the innermost open section raises `unclosedSection` naming the
open section; an open section still unclosed at the end of input raises
`unclosedSection` at offset `totalLen` (the template length).  Each stack
frame holds the open section's name, its polarity (`true` = inverted), and
the parent's collected (reversed) tokens. -/
def nestTags (tags : List RawTag) (stack : List (String × Bool × List Token))
    (acc : List Token) (totalLen : Nat) : Except MErr (List Token) :=
  match tags with
  | [] =>
    match stack with
    | [] => .ok acc.reverse
    | (nm, _, _) :: _ => .error (.unclosedSection nm totalLen)
  | .text s :: rest => nestTags rest stack (.text s :: acc) totalLen
  | .escVar nm :: rest => nestTags rest stack (.escVar nm :: acc) totalLen
  | .rawVar nm :: rest => nestTags rest stack (.rawVar nm :: acc) totalLen
  | .openSec nm _ :: rest => nestTags rest ((nm, false, acc) :: stack) [] totalLen
  | .openInv nm _ :: rest => nestTags rest ((nm, true, acc) :: stack) [] totalLen
  | .closeSec nm p :: rest =>
    match stack with
    | [] => .error (.unopenedSection nm p)
    | (onm, pol, parentAcc) :: stack2 =>
      if onm == nm then
        let node := if pol then Token.inv onm acc.reverse else Token.sec onm acc.reverse
        nestTags rest stack2 (node :: parentAcc) totalLen
      else .error (.unclosedSection onm p)

/-- mustache.js `parseTemplate`: scan the template into flat tags, then nest
and balance-check sections. -/
def parseTemplate (t : String) : Except MErr (List Token) := do
  let raw ← scanTags (t.length + 1) t.data 0 []
  nestTags raw [] [] t.length

mutual

/-- Render one token against a context, as mustache.js `renderTokens` does
for boolean/string context values: escaped variables apply `escapeHtml` to
the stringified value, raw variables do not; a section's body is rendered
iff its flag is truthy, an inverted section's iff its flag is falsy.
(For primitive section values mustache.js pushes the value on the context
stack, but primitive views resolve no names, so lookups inside the section
fall through to the same context.) -/
def renderToken (t : Token) (ctx : Ctx) : String :=
  match t with
  | .text s => s
  | .escVar nm => escapeHtml (stringifyVal (lookupCtx ctx nm))
  | .rawVar nm => stringifyVal (lookupCtx ctx nm)
  | .sec nm inner => if truthy (lookupCtx ctx nm) then renderTokenList inner ctx else ""
  | .inv nm inner => if truthy (lookupCtx ctx nm) then "" else renderTokenList inner ctx

/-- Render a token list by concatenating its tokens' renderings. -/
def renderTokenList (ts : List Token) (ctx : Ctx) : String :=
  match ts with
  | [] => ""
  | t :: rest => renderToken t ctx ++ renderTokenList rest ctx

end

/-- Model of `Mustache.render template context`: parse, then render; a parse failure
is the thrown template-syntax error. -/
def mustacheRender (t : String) (ctx : Ctx) : Except MErr String :=
  (parseTemplate t).map (fun ts => renderTokenList ts ctx)

example : parseTemplate "{{#f}}A{{/f}}{{^f}}B{{/f}}" =
    .ok [Token.sec "f" [Token.text "A"], Token.inv "f" [Token.text "B"]] := by rfl

example : mustacheRender "{{#f}}A{{/f}}{{^f}}B{{/f}}" [("f", MValue.b true)] = .ok "A" := by rfl

example : parseTemplate "{{#a}}X{{/b}}" = .error (.unclosedSection "a" 7) := by rfl

example : parseTemplate "{{#a}}X" = .error (.unclosedSection "a" 7) := by rfl

example : mustacheRender "{{x}}" [("x", MValue.s "a&b")] = .ok "a&amp;b" := by rfl

example : mustacheRender "{{{x}}}" [("x", MValue.s "a&b")] = .ok "a&b" := by rfl

/-! Part 2: the project generator. -/

/-- The database-engine enum of `ProjectConfig` in `src/types/index.ts`:
`database: 'postgresql' | 'mysql' | 'sqlite' | 'mongodb'`. -/
inductive Database where
  | postgresql
  | mysql
  | sqlite
  | mongodb
deriving DecidableEq, Repr

/-- The string value of a database-engine selection. -/
def Database.toStr : Database → String
  | .postgresql => "postgresql"
  | .mysql => "mysql"
  | .sqlite => "sqlite"
  | .mongodb => "mongodb"

/-- The `ProjectConfig` record from `src/types/index.ts`. -/
structure ProjectConfig where
  name : String
  description : String
  author : String
  version : String
  license : String
  typescript : Bool
  database : Database
  authentication : Bool
  swagger : Bool
  testing : Bool
  docker : Bool
  redis : Bool
  websockets : Bool
  backgroundJobs : Bool
  cors : Bool
  rateLimit : Bool
  monitoring : Bool
  features : List String
deriving DecidableEq, Repr

/-- Separator class of the `camelCase`/`pascalCase` regex `[-\s]`. -/
def isSep (c : Char) : Bool := c = '-' || c.isWhitespace

/-- JavaScript `name.toLowerCase().replace(/\s+/g, '-')`: lowercase the name and
collapse every maximal whitespace run into one hyphen.  `prevWs` records
whether the previous character was part of a whitespace run. -/
def kebabAux (prevWs : Bool) : List Char → List Char
  | [] => []
  | c :: rest =>
    if c.isWhitespace then
      (if prevWs then [] else ['-']) ++ kebabAux true rest
    else c.toLower :: kebabAux false rest

/-- The `kebabCase` context entry built by `generateProject`. -/
def kebabCase (s : String) : String := String.mk (kebabAux false s.data)

/-- JavaScript `name.replace(/[-\s]+(.)?/g, (_, c) => (c ? c.toUpperCase() : ''))`:
drop every maximal run of hyphens/whitespace and uppercase the character
following the run (if any).  `pendingUp` records that a separator run has
just ended, so the next literal character is uppercased. -/
def camelAux (pendingUp : Bool) : List Char → List Char
  | [] => []
  | c :: rest =>
    if isSep c then camelAux true rest
    else (if pendingUp then c.toUpper else c) :: camelAux false rest

/-- The `camelCase` context entry built by `generateProject`. -/
def camelCase (s : String) : String := String.mk (camelAux false s.data)

/-- JavaScript `replace(/^./, c => c.toUpperCase())`: uppercase the first character. -/
def upperFirst (s : String) : String :=
  match s.data with
  | [] => ""
  | c :: rest => String.mk (c.toUpper :: rest)

/-- The `pascalCase` context entry built by `generateProject`: the camel-case
form with its first character uppercased. -/
def pascalCase (s : String) : String := upperFirst (camelCase s)

/-- The `TemplateContext` literal built inside `generateProject`: the spread
of `config`, then `currentYear` (from `new Date()`, passed here as a
parameter), the three derived casings of the project name, and one boolean
per database engine, each true iff it equals the selected engine.  All keys
are pairwise distinct.  The `features : string[]` field is also spread by
the code; it is array-valued (outside the boolean/string value model of the
spec's `TemplateContext`) and no packaged template directive references it,
so the embedding omits that one entry. -/
def buildTemplateContext (config : ProjectConfig) (currentYear : String) : Ctx :=
  [ ("name", .s config.name),
    ("description", .s config.description),
    ("author", .s config.author),
    ("version", .s config.version),
    ("license", .s config.license),
    ("typescript", .b config.typescript),
    ("database", .s config.database.toStr),
    ("authentication", .b config.authentication),
    ("swagger", .b config.swagger),
    ("testing", .b config.testing),
    ("docker", .b config.docker),
    ("redis", .b config.redis),
    ("websockets", .b config.websockets),
    ("backgroundJobs", .b config.backgroundJobs),
    ("cors", .b config.cors),
    ("rateLimit", .b config.rateLimit),
    ("monitoring", .b config.monitoring),
    ("currentYear", .s currentYear),
    ("kebabCase", .s (kebabCase config.name)),
    ("camelCase", .s (camelCase config.name)),
    ("pascalCase", .s (pascalCase config.name)),
    ("postgresql", .b (config.database == .postgresql)),
    ("mysql", .b (config.database == .mysql)),
    ("sqlite", .b (config.database == .sqlite)),
    ("mongodb", .b (config.database == .mongodb)) ]

/-! Part 3: file-system state.

Paths are segment lists.  A file-system state is the set of existing
directories plus the set of files with their contents; ancestors of any
recorded path implicitly exist, as on a real file system. -/

/-- A file-system state: explicitly created directories and files with
contents. -/
structure FS where
  dirs : List (List String)
  files : List (List String × String)
deriving DecidableEq, Repr

/-- Model of `fs.pathExists p`: `p` is a recorded directory or file, or an ancestor
of one. -/
def FS.pathExists (fs : FS) (p : List String) : Bool :=
  fs.dirs.any (fun d => p.isPrefixOf d) || fs.files.any (fun f => p.isPrefixOf f.1)

/-- Model of `statSync(p).isFile()`: a file is recorded exactly at `p`. -/
def FS.isFile (fs : FS) (p : List String) : Bool :=
  fs.files.any (fun f => f.1 == p)

/-- Model of `readdirSync(p).length > 0`: some recorded directory or file lies
strictly below `p`. -/
def FS.hasChild (fs : FS) (p : List String) : Bool :=
  fs.dirs.any (fun d => p.isPrefixOf d && decide (p.length < d.length)) ||
    fs.files.any (fun f => p.isPrefixOf f.1 && decide (p.length < f.1.length))

/-- Model of `fs.remove p`: delete `p` and everything below it. -/
def FS.remove (fs : FS) (p : List String) : FS :=
  { dirs := fs.dirs.filter (fun d => !(p.isPrefixOf d)),
    files := fs.files.filter (fun f => !(p.isPrefixOf f.1)) }

/-- Model of `fs.ensureDir p`: record the directory `p` if not already present. -/
def FS.ensureDir (fs : FS) (p : List String) : FS :=
  if fs.dirs.contains p then fs else { fs with dirs := p :: fs.dirs }

/-- Model of `fs.writeFile p c` and `fs.copy src p`: write content `c` at path `p`,
replacing any previous file there. -/
def FS.writeFile (fs : FS) (p : List String) (c : String) : FS :=
  { fs with files := (p, c) :: fs.files.filter (fun f => !(f.1 == p)) }

/-- Result of `validateProjectPath` in `src/utils/validation.ts`. -/
inductive PathValidation where
  | valid
  | invalid (error : String)
deriving DecidableEq, Repr

/-- Model of `validateProjectPath` from `src/utils/validation.ts` (path resolution is
the identity here, paths being already absolute segment lists): an existing
file is invalid, an existing non-empty directory is invalid, anything else —
including an existing empty directory — is valid. -/
def validateProjectPath (fs : FS) (projectPath : List String) : PathValidation :=
  if fs.pathExists projectPath then
    if fs.isFile projectPath then .invalid "Path exists and is a file, not a directory"
    else if fs.hasChild projectPath then .invalid "Directory is not empty"
    else .valid
  else .valid

/-! Part 4: target-name derivation and file processing. -/

/-- JavaScript `s.endsWith(pat)` on character lists, kernel-computable. -/
def strEndsWith (s pat : String) : Bool :=
  pat.data.reverse.isPrefixOf s.data.reverse

/-- JavaScript `s.replace(pat, repl)` with a plain-string pattern: replace
the first occurrence of `pat` (used by the code as
`fileName.replace('.mustache', '')`). -/
def replaceFirstChars (cs pat repl : List Char) : List Char :=
  match cs with
  | [] => []
  | c :: rest =>
    if pat.isPrefixOf (c :: rest) then repl ++ (c :: rest).drop pat.length
    else c :: replaceFirstChars rest pat repl

/-- String wrapper for `replaceFirstChars`. -/
def replaceFirst (s pat repl : String) : String :=
  String.mk (replaceFirstChars s.data pat.data repl.data)

/-- JavaScript `s.replace(/pat$/, repl)` for a literal suffix pattern (used
by the code as `replace(/\.js$/, '.ts')` and `replace(/\.ts$/, '.js')`). -/
def replaceSuffix (s pat repl : String) : String :=
  if strEndsWith s pat then String.mk (s.data.take (s.length - pat.length) ++ repl.data)
  else s

/-- JavaScript `targetFileName.replace(/^_/, '.')`: rewrite one leading underscore to a
dot. -/
def underscoreToDot (t : String) : String :=
  match t.data with
  | '_' :: rest => String.mk ('.' :: rest)
  | _ => t

/-- The target-file-name derivation of `processTemplateFile`: strip the first
`.mustache` occurrence from a template file name and swap the `.ts`/`.js`
suffix toward the selected language; then rewrite a leading underscore to a
dot.  `typescript` is the truthiness of `context.typescript`. -/
def deriveTargetFileName (fileName : String) (typescript : Bool) : String :=
  let t :=
    if strEndsWith fileName ".mustache" then
      let stripped := replaceFirst fileName ".mustache" ""
      if typescript then replaceSuffix stripped ".js" ".ts"
      else replaceSuffix stripped ".ts" ".js"
    else fileName
  underscoreToDot t

/-- A failure during tree materialization.  The only failure the embedding
models is a mustache syntax error; file reads and writes on the explicit
`FS` state are total.  (`processTemplateFile` logs the offending file to
stderr and rethrows the mustache error unchanged.) -/
inductive RunError where
  | templateError (e : MErr)
deriving DecidableEq, Repr

/-- Model of `processTemplateFile`: derive the target file name; a `.mustache` leaf is
mustache-rendered and the result written (a render failure aborts with the
state unchanged), any other leaf is copied verbatim.  Returns the error (if
any) together with the file-system state at that point. -/
def processTemplateFile (fileName content : String) (targetDir : List String)
    (ctx : Ctx) (fs : FS) : Option RunError × FS :=
  let targetFileName := deriveTargetFileName fileName (truthy (lookupCtx ctx "typescript"))
  let targetFile := targetDir ++ [targetFileName]
  if strEndsWith fileName ".mustache" then
    match mustacheRender content ctx with
    | .ok rendered => (none, fs.writeFile targetFile rendered)
    | .error e => (some (.templateError e), fs)
  else (none, fs.writeFile targetFile content)

/-- A node of the packaged template tree: a directory with children, or a
leaf with raw content. -/
inductive TemplateNode where
  | dir (name : String) (children : List TemplateNode)
  | leaf (name : String) (content : String)
deriving Repr

mutual

/-- One step of the `copyTemplate` walk: a directory is created in the target
and recursively copied; a leaf goes through `processTemplateFile`. -/
def processNode (node : TemplateNode) (targetDir : List String) (ctx : Ctx)
    (fs : FS) : Option RunError × FS :=
  match node with
  | .dir name children =>
    let fs1 := fs.ensureDir (targetDir ++ [name])
    copyTemplate children (targetDir ++ [name]) ctx fs1
  | .leaf name content => processTemplateFile name content targetDir ctx fs

/-- Model of `copyTemplate`: process the directory's items in order; the first failure
aborts the walk, leaving every file already written in place. -/
def copyTemplate (items : List TemplateNode) (targetDir : List String)
    (ctx : Ctx) (fs : FS) : Option RunError × FS :=
  match items with
  | [] => (none, fs)
  | item :: rest =>
    match processNode item targetDir ctx fs with
    | (some e, fs2) => (some e, fs2)
    | (none, fs2) => copyTemplate rest targetDir ctx fs2

end

/-- An error raised by `generateProject`: the directory-exists rejection, or
a failure bubbled up from materialization. -/
inductive GenError where
  | dirExists (p : List String)
  | runFailed (e : RunError)
deriving DecidableEq, Repr

/-- Wrap a materialization outcome into a `generateProject` outcome: a
bubbled-up run failure keeps the file-system state it stopped at. -/
def liftRun : Option RunError × FS → Option GenError × FS
  | (some e, fs) => (some (.runFailed e), fs)
  | (none, fs) => (none, fs)

/-- Model of `generateProject` from the generator module: if the target path exists
and `overwrite` is false, throw the directory-exists error with the
file system untouched; if it exists and `overwrite` is true, remove it
entirely; then create the target directory, build the template context, and
copy the packaged template tree (`templates`, read from the package
directory by the code) into it.  `currentYear` abstracts `new Date()`. -/
def generateProject (fs : FS) (projectPath : List String) (config : ProjectConfig)
    (overwrite : Bool) (currentYear : String) (templates : List TemplateNode) :
    Option GenError × FS :=
  if fs.pathExists projectPath && !overwrite then (some (.dirExists projectPath), fs)
  else
    let fs1 := if fs.pathExists projectPath then fs.remove projectPath else fs
    let fs2 := fs1.ensureDir projectPath
    liftRun (copyTemplate templates projectPath (buildTemplateContext config currentYear) fs2)

example : deriveTargetFileName "app.ts.mustache" false = "app.js" := by rfl

example : deriveTargetFileName "app.ts.mustache" true = "app.ts" := by rfl

example : deriveTargetFileName "_env.example" true = ".env.example" := by rfl

example : kebabCase "My Cool App" = "my-cool-app" := by rfl

example : camelCase "my-cool app" = "myCoolApp" := by rfl

example : pascalCase "my-cool app" = "MyCoolApp" := by rfl

/-- A concrete well-formed configuration, used by the concrete witness and
counterexample statements below. -/
def sampleConfig : ProjectConfig :=
  { name := "demo app", description := "a demo", author := "ada",
    version := "1.0.0", license := "MIT", typescript := false,
    database := .postgresql, authentication := false, swagger := false,
    testing := false, docker := true, redis := false, websockets := false,
    backgroundJobs := false, cors := false, rateLimit := false,
    monitoring := false, features := [] }

example :
    generateProject ⟨[], []⟩ ["proj"] sampleConfig false "2026"
      [.leaf "a.txt" "hello", .leaf "bad.js.mustache" "{{#a}}X{{/b}}"] =
    (some (.runFailed (.templateError (.unclosedSection "a" 7))),
      ⟨[["proj"]], [(["proj", "a.txt"], "hello")]⟩) := by rfl

example :
    generateProject ⟨[], []⟩ ["p"] sampleConfig false "2026"
      [.leaf "README.md" "hi there", .leaf "pkg.json.mustache"
        "name: {{name}}, typed: {{#d}}yes{{/d}}{{^d}}no{{/d}}"] =
    (none,
      ⟨[["p"]], [(["p", "pkg.json"], "name: demo app, typed: no"),
        (["p", "README.md"], "hi there")]⟩) := by rfl

/-! Part 5: the claims. -/

/-- Parse result of the branch-exclusivity template. -/
theorem parse_branch_template :
    parseTemplate "{{#f}}A{{/f}}{{^f}}B{{/f}}" =
      Except.ok [Token.sec "f" [Token.text "A"], Token.inv "f" [Token.text "B"]] := rfl

/-- C1: branch exclusivity of conditional expansion.  For every context,
rendering the template `{\x7b#f}\x7dA{\x7b/f}\x7d{\x7b^f}\x7dB{\x7b/f}\x7d`
yields exactly `"A"` when the context's `f` entry is truthy and exactly
`"B"` when it is falsy or absent — no directive marker and no trace of the
unselected branch remains. -/
theorem C1_branch_exclusivity (ctx : Ctx) :
    (truthy (lookupCtx ctx "f") = true →
      mustacheRender "{{#f}}A{{/f}}{{^f}}B{{/f}}" ctx = .ok "A") ∧
    (truthy (lookupCtx ctx "f") = false →
      mustacheRender "{{#f}}A{{/f}}{{^f}}B{{/f}}" ctx = .ok "B") := by
  constructor <;> intro h <;>
    simp [mustacheRender, parse_branch_template, Except.map, renderTokenList,
      renderToken, h, String.append_empty, String.empty_append]

/-- Witness for C1 at the contexts `f := true` and the empty context. -/
theorem C1_branch_exclusivity_witness :
    (truthy (lookupCtx [("f", MValue.b true)] "f") = true ∧
      mustacheRender "{{#f}}A{{/f}}{{^f}}B{{/f}}" [("f", MValue.b true)] = .ok "A") ∧
    (truthy (lookupCtx [] "f") = false ∧
      mustacheRender "{{#f}}A{{/f}}{{^f}}B{{/f}}" [] = .ok "B") :=
  ⟨⟨by decide, (C1_branch_exclusivity [("f", MValue.b true)]).1 (by decide)⟩,
   ⟨by decide, (C1_branch_exclusivity []).2 (by decide)⟩⟩

/-- Parse result of the nesting template. -/
theorem parse_nesting_template :
    parseTemplate "{{#a}}X{{#b}}Y{{/b}}Z{{/a}}" =
      Except.ok [Token.sec "a"
        [Token.text "X", Token.sec "b" [Token.text "Y"], Token.text "Z"]] := rfl

/-- C2: nesting correctness of conditional expansion.  For every context,
rendering `{\x7b#a}\x7dX{\x7b#b}\x7dY{\x7b/b}\x7dZ{\x7b/a}\x7d` yields
`"XZ"` when `a` is truthy and `b` is falsy (inner block dropped, outer
content around it retained), and yields the empty string whenever `a` is
falsy, regardless of `b`. -/
theorem C2_nesting_correctness (ctx : Ctx) :
    (truthy (lookupCtx ctx "a") = true → truthy (lookupCtx ctx "b") = false →
      mustacheRender "{{#a}}X{{#b}}Y{{/b}}Z{{/a}}" ctx = .ok "XZ") ∧
    (truthy (lookupCtx ctx "a") = false →
      mustacheRender "{{#a}}X{{#b}}Y{{/b}}Z{{/a}}" ctx = .ok "") := by
  constructor
  · intro ha hb
    simp [mustacheRender, parse_nesting_template, Except.map, renderTokenList,
      renderToken, ha, hb, String.append_empty, String.empty_append]
  · intro ha
    simp [mustacheRender, parse_nesting_template, Except.map, renderTokenList,
      renderToken, ha, String.append_empty, String.empty_append]

/-- Witness for C2 at `a := true, b := false` and at `a := false, b := true`. -/
theorem C2_nesting_correctness_witness :
    (truthy (lookupCtx [("a", MValue.b true), ("b", MValue.b false)] "a") = true ∧
      truthy (lookupCtx [("a", MValue.b true), ("b", MValue.b false)] "b") = false ∧
      mustacheRender "{{#a}}X{{#b}}Y{{/b}}Z{{/a}}"
        [("a", MValue.b true), ("b", MValue.b false)] = .ok "XZ") ∧
    (truthy (lookupCtx [("a", MValue.b false), ("b", MValue.b true)] "a") = false ∧
      mustacheRender "{{#a}}X{{#b}}Y{{/b}}Z{{/a}}"
        [("a", MValue.b false), ("b", MValue.b true)] = .ok "") :=
  ⟨⟨by decide, by decide,
    (C2_nesting_correctness [("a", MValue.b true), ("b", MValue.b false)]).1
      (by decide) (by decide)⟩,
   ⟨by decide,
    (C2_nesting_correctness [("a", MValue.b false), ("b", MValue.b true)]).2 (by decide)⟩⟩

/-- C3: target-path derivation is a deterministic function (it is a pure
function of the source leaf name and the language flag): `app.ts.mustache`
derives `app.js` when `typescript` is false and `app.ts` when it is true,
and `_env.example` (no template suffix) derives `.env.example` for every
context. -/
theorem C3_target_path_derivation :
    deriveTargetFileName "app.ts.mustache" false = "app.js" ∧
    deriveTargetFileName "app.ts.mustache" true = "app.ts" ∧
    ∀ (typescript : Bool), deriveTargetFileName "_env.example" typescript = ".env.example" := by
  refine ⟨rfl, rfl, fun t => ?_⟩
  cases t <;> rfl

/-- C8: database-engine exclusivity.  In the `TemplateContext` that
`generateProject` builds, each of the four engine entries holds exactly the
boolean `database == engine`, and across any selected engine exactly one of
the four booleans is true. -/
theorem C8_database_exclusivity (cfg : ProjectConfig) (yr : String) :
    lookupCtx (buildTemplateContext cfg yr) "postgresql" =
      some (.b (cfg.database == .postgresql)) ∧
    lookupCtx (buildTemplateContext cfg yr) "mysql" = some (.b (cfg.database == .mysql)) ∧
    lookupCtx (buildTemplateContext cfg yr) "sqlite" = some (.b (cfg.database == .sqlite)) ∧
    lookupCtx (buildTemplateContext cfg yr) "mongodb" = some (.b (cfg.database == .mongodb)) ∧
    ((if cfg.database == Database.postgresql then 1 else 0) +
     (if cfg.database == Database.mysql then 1 else 0) +
     (if cfg.database == Database.sqlite then 1 else 0) +
     (if cfg.database == Database.mongodb then 1 else 0) = 1) := by
  refine ⟨rfl, rfl, rfl, rfl, ?_⟩
  cases hdb : cfg.database <;> decide

/-- Parse result of a lone escaped-variable tag. -/
theorem parse_var_template : parseTemplate "{{x}}" = Except.ok [Token.escVar "x"] := rfl

/-- Parse result of a lone triple-brace variable tag. -/
theorem parse_rawvar_template : parseTemplate "{{{x}}}" = Except.ok [Token.rawVar "x"] := rfl

/-- C5 counterexample: substitution is not raw.  With `x` bound to `"a&b"`,
the double-brace form renders the HTML-escaped `"a&amp;b"` while the
triple-brace form renders `"a&b"` — so the two forms are not equivalent and
escaping is applied. -/
theorem C5_escaping_counterexample :
    mustacheRender "{{x}}" [("x", MValue.s "a&b")] = .ok "a&amp;b" ∧
    mustacheRender "{{{x}}}" [("x", MValue.s "a&b")] = .ok "a&b" ∧
    ("a&amp;b" : String) ≠ "a&b" :=
  ⟨rfl, rfl, by decide⟩

/-- C5 (amended): a double-brace marker is replaced by the HTML-escaped
stringified context value (mustache.js default escaping of the eight entity
characters), the triple-brace marker by the raw stringified value, and a
name missing from the context renders as the empty string in both forms. -/
theorem C5_substitution_amended (v : MValue) :
    mustacheRender "{{x}}" [("x", v)] = .ok (escapeHtml (stringifyVal (some v))) ∧
    mustacheRender "{{{x}}}" [("x", v)] = .ok (stringifyVal (some v)) ∧
    mustacheRender "{{x}}" [] = .ok "" ∧
    mustacheRender "{{{x}}}" [] = .ok "" := by
  have hl : lookupCtx [("x", v)] "x" = some v := rfl
  refine ⟨?_, ?_, rfl, rfl⟩ <;>
    simp [mustacheRender, parse_var_template, parse_rawvar_template, Except.map,
      renderTokenList, renderToken, hl, String.append_empty]

/-- Parse result of the mismatched-close template: mustache.js raises
`Unclosed section "a"` at offset 7, the start of the `{\x7b/b}\x7d` tag. -/
theorem parse_mismatch_template :
    parseTemplate "{{#a}}X{{/b}}" = Except.error (.unclosedSection "a" 7) := rfl

/-- Parse result of the trailing-unclosed template: mustache.js raises
`Unclosed section "a"` at offset 7, the template length. -/
theorem parse_unclosed_template :
    parseTemplate "{{#a}}X" = Except.error (.unclosedSection "a" 7) := rfl

/-- C6 counterexample: expanding `{\x7b#a}\x7dX{\x7b/b}\x7d` raises the
error `unclosedSection "a" 7`, which names only the open flag `a` — the
flag `b` from the offending close tag is not named (and the error value
carries no file path; the file is only logged to stderr before the rethrow). -/
theorem C6_error_names_counterexample :
    mustacheRender "{{#a}}X{{/b}}" [] = .error (.unclosedSection "a" 7) ∧
    "b" ∉ MErr.names (.unclosedSection "a" 7) :=
  ⟨rfl, by decide⟩

/-- C6 (amended): for every context, expanding `{\x7b#a}\x7dX{\x7b/b}\x7d`
raises a template syntax error naming the open flag `a` and the character
offset of the mismatched close; a trailing unclosed `{\x7b#a}\x7d` raises
the same error kind naming `a`. -/
theorem C6_unmatched_tag_amended (ctx : Ctx) :
    mustacheRender "{{#a}}X{{/b}}" ctx = .error (.unclosedSection "a" 7) ∧
    mustacheRender "{{#a}}X" ctx = .error (.unclosedSection "a" 7) ∧
    "a" ∈ MErr.names (.unclosedSection "a" 7) := by
  refine ⟨?_, ?_, by decide⟩ <;>
    simp [mustacheRender, parse_mismatch_template, parse_unclosed_template, Except.map]

/-- C7 counterexample: with a two-leaf template tree whose second leaf has a
syntax error, the run raises — but the target directory is left behind
half-populated: the first leaf's output file is still present in the final
file-system state.  This refutes the claimed cleanup half of the claim. -/
theorem C7_cleanup_counterexample :
    (generateProject ⟨[], []⟩ ["proj"] sampleConfig false "2026"
        [.leaf "a.txt" "hello", .leaf "bad.js.mustache" "{{#a}}X{{/b}}"]).1 =
      some (.runFailed (.templateError (.unclosedSection "a" 7))) ∧
    (["proj", "a.txt"], "hello") ∈
      (generateProject ⟨[], []⟩ ["proj"] sampleConfig false "2026"
        [.leaf "a.txt" "hello", .leaf "bad.js.mustache" "{{#a}}X{{/b}}"]).2.files :=
  ⟨rfl, by decide⟩

/-- C7 (amended): a template file whose expansion fails aborts the walk at
that point — the failing file and everything after it are not written and
the error propagates out of `generateProject` — but files already written
before the failure remain on disk; no cleanup of the partially populated
target directory happens. -/
theorem C7_abort_without_cleanup (rest : List TemplateNode) (dir : List String)
    (ctx : Ctx) (fs : FS) :
    copyTemplate (.leaf "bad.js.mustache" "{{#a}}X{{/b}}" :: rest) dir ctx fs =
      (some (.templateError (.unclosedSection "a" 7)), fs) ∧
    generateProject ⟨[], []⟩ ["proj"] sampleConfig false "2026"
      [.leaf "a.txt" "hello", .leaf "bad.js.mustache" "{{#a}}X{{/b}}"] =
      (some (.runFailed (.templateError (.unclosedSection "a" 7))),
        ⟨[["proj"]], [(["proj", "a.txt"], "hello")]⟩) := by
  constructor
  · have he : strEndsWith "bad.js.mustache" ".mustache" = true := rfl
    simp [copyTemplate, processNode, processTemplateFile, mustacheRender,
      parse_mismatch_template, Except.map, he]
  · rfl

/-- Any lifted materialization outcome is never the directory-exists error. -/
theorem liftRun_ne_dirExists (r : Option RunError × FS) (q : List String) :
    (liftRun r).1 ≠ some (.dirExists q) := by
  rcases r with ⟨oe, fs3⟩
  cases oe <;> simp [liftRun]

/-- C4: overwrite semantics of the entry point.  If the target path exists
and overwrite is false, `generateProject` fails with the directory-exists
error and the file-system state — in particular the existing directory's
contents — is completely unchanged.  If the target exists and overwrite is
true, the run equals materialization started from the state in which the
target was first removed and recreated empty: no file under the target
path survives into the state the new project is written into. -/
theorem C4_overwrite_semantics (fs : FS) (p : List String) (cfg : ProjectConfig)
    (yr : String) (tpl : List TemplateNode) (hex : fs.pathExists p = true) :
    generateProject fs p cfg false yr tpl = (some (.dirExists p), fs) ∧
    generateProject fs p cfg true yr tpl =
      liftRun (copyTemplate tpl p (buildTemplateContext cfg yr)
        ((fs.remove p).ensureDir p)) ∧
    ((fs.remove p).ensureDir p).files.all (fun f => !(p.isPrefixOf f.1)) = true := by
  refine ⟨by simp [generateProject, hex], by simp [generateProject, hex], ?_⟩
  have he : ((fs.remove p).ensureDir p).files = (fs.remove p).files := by
    unfold FS.ensureDir; split <;> rfl
  rw [he, List.all_eq_true]
  intro f hf
  exact (List.mem_filter.mp hf).2

/-- Witness for C4 at a one-directory file system whose directory is the
target, with an empty template tree. -/
theorem C4_overwrite_semantics_witness :
    FS.pathExists ⟨[["t"]], []⟩ ["t"] = true ∧
    (generateProject ⟨[["t"]], []⟩ ["t"] sampleConfig false "2026" [] =
      (some (.dirExists ["t"]), ⟨[["t"]], []⟩) ∧
    generateProject ⟨[["t"]], []⟩ ["t"] sampleConfig true "2026" [] =
      liftRun (copyTemplate [] ["t"] (buildTemplateContext sampleConfig "2026")
        ((FS.remove ⟨[["t"]], []⟩ ["t"]).ensureDir ["t"])) ∧
    ((FS.remove ⟨[["t"]], []⟩ ["t"]).ensureDir ["t"]).files.all
      (fun f => !(List.isPrefixOf ["t"] f.1)) = true) :=
  ⟨by decide, C4_overwrite_semantics ⟨[["t"]], []⟩ ["t"] sampleConfig "2026" [] (by decide)⟩

/-- C9: verbatim copy of non-template leaves.  A leaf whose name does not
end in `.mustache` is written with content byte-identical to the source, at
the name obtained from the source name by rewriting a single leading
underscore to a dot — and the typescript/javascript extension swap is never
applied to such a leaf (the derived name is the same for both language
settings). -/
theorem C9_verbatim_copy (name content : String) (targetDir : List String)
    (ctx : Ctx) (fs : FS) (h : strEndsWith name ".mustache" = false) :
    processTemplateFile name content targetDir ctx fs =
      (none, fs.writeFile (targetDir ++ [underscoreToDot name]) content) ∧
    ∀ (typescript : Bool), deriveTargetFileName name typescript = underscoreToDot name := by
  have hd : ∀ (ts : Bool), deriveTargetFileName name ts = underscoreToDot name := by
    intro ts
    simp [deriveTargetFileName, h]
  exact ⟨by simp [processTemplateFile, h, hd], hd⟩

/-- Witness for C9 at the non-template leaf `_env.example`. -/
theorem C9_verbatim_copy_witness :
    strEndsWith "_env.example" ".mustache" = false ∧
    (processTemplateFile "_env.example" "KEY=1" ["p"] [] ⟨[], []⟩ =
      (none, FS.writeFile ⟨[], []⟩ (["p"] ++ [underscoreToDot "_env.example"]) "KEY=1") ∧
    ∀ (typescript : Bool),
      deriveTargetFileName "_env.example" typescript = underscoreToDot "_env.example") :=
  ⟨by decide, C9_verbatim_copy "_env.example" "KEY=1" ["p"] [] ⟨[], []⟩ (by decide)⟩

/-- C10: with overwrite false, `generateProject` raises the directory-exists
error exactly when the target path exists — emptiness of the existing
directory is not consulted.  `validateProjectPath`, by contrast, classifies
an existing empty directory as valid: on the concrete state with one empty
directory `t`, validation passes while the generator still rejects. -/
theorem C10_generator_stricter_than_validation (fs : FS) (p : List String)
    (cfg : ProjectConfig) (yr : String) (tpl : List TemplateNode) :
    ((generateProject fs p cfg false yr tpl).1 = some (.dirExists p) ↔
      fs.pathExists p = true) ∧
    (validateProjectPath ⟨[["t"]], []⟩ ["t"] = .valid ∧
     FS.pathExists ⟨[["t"]], []⟩ ["t"] = true ∧
     (generateProject ⟨[["t"]], []⟩ ["t"] cfg false yr tpl).1 = some (.dirExists ["t"])) := by
  constructor
  · cases hpe : fs.pathExists p with
    | true => simp [generateProject, hpe]
    | false =>
      simp only [generateProject, hpe, Bool.false_and, Bool.not_false, Bool.and_true,
        if_false]
      simp [liftRun_ne_dirExists, hpe]
  · exact ⟨by decide, by decide, rfl⟩
